import Mathlib

/-!
# cf-dns-update: the record-set reconciler

A shallow embedding of `src/cf-dns-update/main.go`.

* Go strings are modelled by `String`; the environment declaration is split on
  the ASCII colon, so splitting by character agrees with Go splitting by byte.
* Go `int` is the 64-bit signed integer; values are `Int`, and the only place
  where the range matters is `strconv.Atoi`, which saturates.
* The Cloudflare client, the address service and `sort.Sort` are the
  environment of the program: they are fields of `World`.
* `log.Fatal` and `os.Exit` end the run; a run is summarised by `Run`: the
  provider state reached, the mutating calls issued in order, the lines logged
  without ending the run, and how the process ended.
-/

namespace CfDnsUpdate

/-! ## Data model -/

/-- The fields of `cloudflare.DNSRecord` the program reads or writes.
`Typ` is the Go field `Type`. `ModifiedOn` is an instant, `Before` is `<`. -/
structure DNSRecord where
  ID : String
  Typ : String
  Name : String
  Content : String
  Proxied : Bool
  ModifiedOn : Nat
deriving DecidableEq

/-- The Go struct `Config`, without the client handle `cf`. -/
structure Config where
  authEmail : String
  authKey : String
  zoneName : String
  zoneID : String
  recordName : String
  recordType : String
  arg : String
  argN : Int
  noProxy : Bool
deriving DecidableEq

/-! ## Library functions used by `NewConfig` -/

/-- Splitting a character list at every occurrence of `sep`; the result is
never empty, as with `strings.Split` for a non-empty separator. -/
def splitChars (sep : Char) : List Char → List (List Char)
  | [] => [[]]
  | c :: cs =>
    if c = sep then [] :: splitChars sep cs
    else
      match splitChars sep cs with
      | [] => [[c]]
      | p :: ps => (c :: p) :: ps

/-- The Go call `strings.Split(s, sep)` for a one-character separator. -/
def Split (s : String) (sep : Char) : List String :=
  (splitChars sep s.data).map String.mk

/-- The Go function `unicode.ToLower` on one rune. ASCII capitals move down by
32. Outside ASCII Go maps a rune to its Unicode lower case, which is again
outside ASCII except for U+0130 (to `i`) and U+212A (to `k`); these two are
kept, every other rune outside ASCII is left as it is, which cannot change the
outcome of a comparison with an ASCII word. -/
def toLowerRune (c : Char) : Char :=
  if 65 ≤ c.toNat ∧ c.toNat ≤ 90 then Char.ofNat (c.toNat + 32)
  else if c.toNat = 0x130 then 'i'
  else if c.toNat = 0x212A then 'k'
  else c

/-- The Go call `strings.ToLower(s)`. -/
def ToLower (s : String) : String :=
  String.mk (s.data.map toLowerRune)

/-- The two kinds of `strconv.NumError`. -/
inductive NumError where
  | ErrSyntax
  | ErrRange
deriving DecidableEq

/-- Largest value of the 64-bit `uint64`. -/
def maxUint64 : Nat := 2 ^ 64 - 1

/-- The digit loop of `strconv.ParseUint(s, 10, 64)`: `n` is the value read so
far. A byte that is not a decimal digit is a syntax error with value 0; an
overflow ends the loop at once with the largest value and a range error, so
what follows the overflowing digit is not looked at. -/
def parseUintLoop : List Char → Nat → Nat × Option NumError
  | [], n => (n, none)
  | c :: cs, n =>
    if 48 ≤ c.toNat ∧ c.toNat ≤ 57 then
      let d := c.toNat - 48
      if n ≥ maxUint64 / 10 + 1 then (maxUint64, some .ErrRange)
      else
        let n1 := n * 10 + d
        if n1 > maxUint64 then (maxUint64, some .ErrRange)
        else parseUintLoop cs n1
    else (0, some .ErrSyntax)

/-- The Go call `strconv.ParseUint(s, 10, 64)`. -/
def ParseUint (s : List Char) : Nat × Option NumError :=
  if s = [] then (0, some .ErrSyntax) else parseUintLoop s 0

/-- The Go call `strconv.ParseInt(s, 10, 0)` with 64-bit `int`: an optional
sign, then `ParseUint`; a syntax error gives 0, a magnitude out of range gives
the largest magnitude of that sign together with a range error. -/
def ParseInt (s : List Char) : Int × Option NumError :=
  match s with
  | [] => (0, some .ErrSyntax)
  | c :: cs =>
    let neg := decide (c = '-')
    let body := if c = '+' ∨ c = '-' then cs else c :: cs
    match ParseUint body with
    | (_, some .ErrSyntax) => (0, some .ErrSyntax)
    | (un, _) =>
      if neg = false ∧ un ≥ 2 ^ 63 then ((2 : Int) ^ 63 - 1, some .ErrRange)
      else if neg = true ∧ un > 2 ^ 63 then (-(2 : Int) ^ 63, some .ErrRange)
      else (if neg then -(un : Int) else (un : Int), none)

/-- The fast path of `strconv.Atoi` for strings of 1 to 18 bytes: an optional
sign and then digits only; the value always fits. -/
def atoiFast (s : List Char) : Int × Option NumError :=
  match s with
  | [] => (0, some .ErrSyntax)
  | c :: cs =>
    let body := if c = '-' ∨ c = '+' then cs else c :: cs
    if body = [] then (0, some .ErrSyntax)
    else if body.all (fun ch => decide (48 ≤ ch.toNat ∧ ch.toNat ≤ 57)) then
      let n : Nat := body.foldl (fun (acc : Nat) (ch : Char) => acc * 10 + (ch.toNat - 48)) 0
      (if c = '-' then -(n : Int) else (n : Int), none)
    else (0, some .ErrSyntax)

/-- The Go call `strconv.Atoi(s)` with 64-bit `int`: value and error. -/
def Atoi (s : String) : Int × Option NumError :=
  if 0 < s.utf8ByteSize ∧ s.utf8ByteSize < 19 then atoiFast s.data
  else ParseInt s.data

/-! ## `NewConfig` -/

/-- The Go function `NewConfig`, given the three environment variables.
`none` is the `log.Fatalf` for a declaration that has not 5 parts. The error
of `Atoi` is dropped, as in the source. -/
def NewConfig (record authEmail authKey : String) : Option Config :=
  match Split record ':' with
  | [s0, s1, s2, s3, s4] =>
    some
      { authEmail := authEmail
        authKey := authKey
        zoneName := s0
        zoneID := ""
        recordName := s2 ++ "." ++ s0
        recordType := s3
        arg := s4
        argN := (Atoi s4).1
        noProxy := decide (ToLower s1 = "noproxy") }
  | _ => none

/-! ## The provider calls and the outcome of a run -/

/-- The record literal that `add` and `update` send: the four fields they set. -/
structure RecordData where
  Typ : String
  Name : String
  Content : String
  Proxied : Bool
deriving DecidableEq

/-- A mutating call on the Cloudflare client: `CreateDNSRecord`,
`DeleteDNSRecord`, `UpdateDNSRecord`, each with the zone identifier. -/
inductive Call where
  | create (zoneID : String) (rr : RecordData)
  | delete (zoneID : String) (rid : String)
  | update (zoneID : String) (rid : String) (rr : RecordData)
deriving DecidableEq

/-- How the process ends: `os.Exit(0)` after printing `line`, `log.Fatal`
(exit status 1), or the run-time panic of indexing an empty slice. -/
inductive Exit where
  | ok (line : String)
  | fatal (msg : String)
  | indexPanic
deriving DecidableEq

/-- What one helper (`add`, `deleteRecord`, `update`) did: the call it issued,
the provider state after it, whether the returned error is non-nil, and the
lines it logged itself. -/
structure Reply (σ : Type) where
  state : σ
  call : Call
  err : Bool
  logs : List String

/-- Summary of a run. -/
structure Run (σ : Type) where
  state : σ
  calls : List Call
  logs : List String
  exit : Exit

/-- The Go method `Config.add`. -/
def Config.add {σ : Type} (c : Config) (exec : σ → Call → σ × Bool) (s : σ) (content : String) :
    Reply σ :=
  let call := Call.create c.zoneID
    { Typ := c.recordType, Name := c.recordName, Proxied := !c.noProxy, Content := content }
  let res := exec s call
  { state := res.1, call := call, err := res.2
    logs := if res.2 then ["add " ++ c.recordType ++ ": "] else [] }

/-- The Go method `Config.deleteRecord`. -/
def Config.deleteRecord {σ : Type} (c : Config) (exec : σ → Call → σ × Bool) (s : σ)
    (rid : String) : Reply σ :=
  let call := Call.delete c.zoneID rid
  let res := exec s call
  { state := res.1, call := call, err := res.2, logs := [] }

/-- The Go method `Config.update`. -/
def Config.update {σ : Type} (c : Config) (exec : σ → Call → σ × Bool) (s : σ) (r : DNSRecord)
    (content : String) : Reply σ :=
  let call := Call.update c.zoneID r.ID
    { Typ := c.recordType, Name := c.recordName, Content := content, Proxied := !c.noProxy }
  let res := exec s call
  { state := res.1, call := call, err := res.2, logs := [] }

/-! ## The trimming loop, lines 165 to 171 -/

/-- State of the trimming loop when it is left. -/
structure Trim (σ : Type) where
  state : σ
  rs : List DNSRecord
  i : Nat
  calls : List Call
  logs : List String
  panicked : Bool

/-- The loop `for i := 0; i < len(rs)-c.argN; i++` with body
`deleteRecord(rs[0].ID); rs = rs[1:]`, started at counter `i`, provider state
`s` and slice `rs`. The bound is evaluated again on every pass with the
current slice. A failed delete is logged and the loop goes on. Every pass
shortens the slice, so the recursion is on the slice. With `argN` at least 1
and a slice length below `2^63` the difference cannot overflow. -/
def trimLoop {σ : Type} (c : Config) (exec : σ → Call → σ × Bool) :
    Nat → σ → List DNSRecord → Trim σ
  | i, s, [] =>
    if (i : Int) < (0 : Int) - c.argN then
      { state := s, rs := [], i := i, calls := [], logs := [], panicked := true }
    else { state := s, rs := [], i := i, calls := [], logs := [], panicked := false }
  | i, s, r :: rest =>
    if (i : Int) < ((r :: rest).length : Int) - c.argN then
      let d := c.deleteRecord exec s r.ID
      let t := trimLoop c exec (i + 1) d.state rest
      { t with
        calls := d.call :: t.calls
        logs := (if d.err then ["delete A record: "] else []) ++ t.logs }
    else { state := s, rs := r :: rest, i := i, calls := [], logs := [], panicked := false }

/-! ## The switch of `main`, lines 141 to 203 -/

/-- The case `"A"` of the switch, after the check of `argN` and `getIP`. -/
def addressMode {σ : Type} (c : Config) (ip : String) (exec : σ → Call → σ × Bool) (s : σ)
    (rs : List DNSRecord) : Run σ :=
  if rs.any (fun r => decide (r.Content = ip)) then
    { state := s, calls := [], logs := [], exit := .ok "record already exists" }
  else if (rs.length : Int) < c.argN then
    let a := c.add exec s ip
    { state := a.state, calls := [a.call], logs := a.logs
      exit := if a.err then .fatal "add A record: " else .ok "A record added" }
  else
    let t : Trim σ :=
      if (rs.length : Int) > c.argN then trimLoop c exec 0 s rs
      else { state := s, rs := rs, i := 0, calls := [], logs := [], panicked := false }
    if t.panicked then
      { state := t.state, calls := t.calls, logs := t.logs, exit := .indexPanic }
    else
      match t.rs with
      | [] => { state := t.state, calls := t.calls, logs := t.logs, exit := .indexPanic }
      | r :: _ =>
        let u := c.update exec t.state r ip
        { state := u.state, calls := t.calls ++ [u.call], logs := t.logs ++ u.logs
          exit := if u.err then .fatal "update A record: " else .ok "A record updated" }

/-- The case `"CNAME"` of the switch. -/
def aliasMode {σ : Type} (c : Config) (exec : σ → Call → σ × Bool) (s : σ)
    (rs : List DNSRecord) : Run σ :=
  match rs with
  | [] =>
    let a := c.add exec s c.arg
    { state := a.state, calls := [a.call], logs := a.logs
      exit := if a.err then .fatal "add CNAME: " else .ok "CNAME record added" }
  | r :: _ =>
    if r.Content = c.arg then
      { state := s, calls := [], logs := [], exit := .ok "record already exists" }
    else
      let u := c.update exec s r c.arg
      { state := u.state, calls := [u.call], logs := u.logs
        exit := if u.err then .fatal "update CNAME record: " else .ok "CNAME record updated" }

/-- The statement `switch c.recordType` of `main`, run on the sorted slice
`rs`; `getIP` is the result of the address service, `none` for an error. -/
def dispatch {σ : Type} (c : Config) (getIP : Option String) (exec : σ → Call → σ × Bool) (s : σ)
    (rs : List DNSRecord) : Run σ :=
  if c.recordType = "A" then
    if c.argN < 1 then { state := s, calls := [], logs := [], exit := .fatal "argN < 1: " }
    else
      match getIP with
      | none => { state := s, calls := [], logs := [], exit := .fatal "get IP from API: " }
      | some ip => addressMode c ip exec s rs
  else if c.recordType = "CNAME" then aliasMode c exec s rs
  else { state := s, calls := [], logs := [], exit := .fatal "unimplemented record type: " }

/-! ## The environment and `main` -/

/-- Everything outside the program. `σ` is the state of the DNS provider.
`authErr` tells whether `cloudflare.New` fails, `zoneIDByName` and
`dnsRecords` are the two reading calls (`none` for an error), `exec` runs one
mutating call and tells whether it returned an error, `getIP` is the answer of
the address service, and `sort` is `sort.Sort` on `Records`. -/
structure World (σ : Type) where
  record : String
  authEmail : String
  authKey : String
  authErr : Bool
  zoneIDByName : String → Option String
  dnsRecords : σ → String → String → String → Option (List DNSRecord)
  exec : σ → Call → σ × Bool
  getIP : Option String
  sort : List DNSRecord → List DNSRecord

/-- The Go function `main`, started with the provider in state `s`. -/
def main {σ : Type} (w : World σ) (s : σ) : Run σ :=
  match NewConfig w.record w.authEmail w.authKey with
  | none => { state := s, calls := [], logs := [], exit := .fatal "expected RECORD to have 5 parts" }
  | some c0 =>
    if w.authErr then { state := s, calls := [], logs := [], exit := .fatal "auth: " }
    else
      match w.zoneIDByName c0.zoneName with
      | none => { state := s, calls := [], logs := [], exit := .fatal "get zone " }
      | some zid =>
        let c := { c0 with zoneID := zid }
        match w.dnsRecords s c.zoneID c.recordType c.recordName with
        | none => { state := s, calls := [], logs := [], exit := .fatal "get records: " }
        | some rs => dispatch c w.getIP w.exec s (w.sort rs)

/-- The order that `Records.Less` asks of `sort.Sort`: the result is a
rearrangement of the slice in which no record is modified before one that
precedes it. `sort.Sort` is not stable, so nothing more is known of it. -/
def SortsByModifiedOn (sort : List DNSRecord → List DNSRecord) : Prop :=
  ∀ l, (sort l).Perm l ∧ (sort l).Pairwise (fun a b => ¬ b.ModifiedOn < a.ModifiedOn)

/-- An executable instance of `sort.Sort` on `Records`. It is a stable
insertion sort, while `sort.Sort` is not stable, so the two may order records
of equal instant differently; it is used only on sample stores whose instants
are distinct, and the general theorems take any sort that meets
`SortsByModifiedOn`. -/
def sortRecords (l : List DNSRecord) : List DNSRecord :=
  l.insertionSort (fun a b => a.ModifiedOn ≤ b.ModifiedOn)

/-! ## A provider whose mutating calls answer by a fixed pattern -/

/-- A provider whose state is the number of calls received and whose `k`-th
call fails exactly when `fails k`. -/
def scripted (fails : Nat → Bool) (k : Nat) (_ : Call) : Nat × Bool :=
  (k + 1, fails k)

/-- A sample record with the given identifier, content and instant. -/
def mkRecord (id content : String) (t : Nat) : DNSRecord :=
  { ID := id, Typ := "A", Name := "www.example.com", Content := content, Proxied := true
    ModifiedOn := t }

/-- A sample configuration of type `"A"` with pool size `n`. -/
def sampleA (n : Int) : Config :=
  { authEmail := "", authKey := "", zoneName := "example.com", zoneID := "z"
    recordName := "www.example.com", recordType := "A", arg := "", argN := n, noProxy := false }

/-! ## A model of the record store of the provider -/

/-- The record store of the DNS provider for one zone, with a clock that
advances on every mutating call. The store is not part of the repository; the
model follows what the client library documents: a created record is added, a
deleted record is removed, an updated record takes the fields sent and a new
modification instant. -/
structure Provider where
  records : List DNSRecord
  clock : Nat
deriving DecidableEq

/-- The listing `DNSRecords(zoneID, DNSRecord{Type, Name})`: the stored records
of that type and name. -/
def Provider.list (p : Provider) (_zoneID typ name : String) : Option (List DNSRecord) :=
  some (p.records.filter (fun r => decide (r.Typ = typ ∧ r.Name = name)))

/-- The stored records of a type and name: the record set that the listing
returns. -/
def Provider.matching (p : Provider) (typ name : String) : List DNSRecord :=
  p.records.filter (fun r => decide (r.Typ = typ ∧ r.Name = name))

/-- One mutating call on the store. `outage k` makes the call at clock `k` fail
and change nothing, for reasons outside the store; `fresh k` is the identifier
given to a record created at clock `k`. Delete and update of an identifier
that is not stored return an error. -/
def Provider.exec (fresh : Nat → String) (outage : Nat → Bool) (p : Provider) (call : Call) :
    Provider × Bool :=
  if outage p.clock then ({ p with clock := p.clock + 1 }, true)
  else
    match call with
    | .create _ rr =>
      ({ records := p.records ++
            [{ ID := fresh p.clock, Typ := rr.Typ, Name := rr.Name, Content := rr.Content
               Proxied := rr.Proxied, ModifiedOn := p.clock }]
         clock := p.clock + 1 }, false)
    | .delete _ rid =>
      if p.records.any (fun r => decide (r.ID = rid)) then
        ({ records := p.records.filter (fun r => decide (r.ID ≠ rid)), clock := p.clock + 1 }, false)
      else ({ p with clock := p.clock + 1 }, true)
    | .update _ rid rr =>
      if p.records.any (fun r => decide (r.ID = rid)) then
        ({ records := p.records.map (fun r =>
              if r.ID = rid then
                { ID := r.ID, Typ := rr.Typ, Name := rr.Name, Content := rr.Content
                  Proxied := rr.Proxied, ModifiedOn := p.clock }
              else r)
           clock := p.clock + 1 }, false)
      else ({ p with clock := p.clock + 1 }, true)

/-- The program run against the record store: the declaration `record`, the
answer `getIP` of the address service, no failure of authentication or zone
lookup, and no outage. -/
def cloudflare (record : String) (getIP : Option String) : World Provider :=
  { record := record
    authEmail := "user@example.com"
    authKey := "key"
    authErr := false
    zoneIDByName := fun _ => some "zone-1"
    dnsRecords := Provider.list
    exec := Provider.exec (fun k => "new-" ++ toString k) (fun _ => false)
    getIP := getIP
    sort := sortRecords }

/-- The proxied flag carried by a call, if it carries a record. -/
def Call.proxied : Call → Option Bool
  | .create _ rr => some rr.Proxied
  | .delete _ _ => none
  | .update _ _ rr => some rr.Proxied

/-- A store with three address records for `www.example.com`, modified at
instants 10, 20 and 30 and listed in another order. -/
def threeAddresses : Provider :=
  { records := [mkRecord "3" "3.3.3.3" 30, mkRecord "1" "1.1.1.1" 10, mkRecord "2" "2.2.2.2" 20]
    clock := 100 }

/-- A store with two alias records for `www.example.com`, modified at instants
10 and 20. -/
def twoAliases : Provider :=
  { records :=
      [{ ID := "1", Typ := "CNAME", Name := "www.example.com", Content := "a.example.net"
         Proxied := true, ModifiedOn := 10 },
       { ID := "2", Typ := "CNAME", Name := "www.example.com", Content := "c.example.net"
         Proxied := true, ModifiedOn := 20 }]
    clock := 100 }

/-- The provider state after the calls of a list, each run in turn. -/
def runCalls {σ : Type} (exec : σ → Call → σ × Bool) (s : σ) (calls : List Call) : σ :=
  calls.foldl (fun st call => (exec st call).1) s

/-! # Theorems -/

/-- The trimming loop started at counter `i` on a slice of length `L`, with
`argN = N` not negative, makes `(L - N - i + 1) / 2` passes: it deletes that
many records from the front, in order, keeps the rest, and never indexes an
empty slice. -/
theorem trimLoop_spec {σ : Type} (c : Config) (exec : σ → Call → σ × Bool) (N : Nat)
    (hN : c.argN = (N : Int)) (rs : List DNSRecord) :
    ∀ (i : Nat) (s : σ),
      (trimLoop c exec i s rs).rs = rs.drop ((rs.length - N - i + 1) / 2) ∧
      (trimLoop c exec i s rs).i = i + (rs.length - N - i + 1) / 2 ∧
      (trimLoop c exec i s rs).calls =
        (rs.take ((rs.length - N - i + 1) / 2)).map (fun r => Call.delete c.zoneID r.ID) ∧
      (trimLoop c exec i s rs).panicked = false ∧
      (trimLoop c exec i s rs).state =
        runCalls exec s
          ((rs.take ((rs.length - N - i + 1) / 2)).map (fun r => Call.delete c.zoneID r.ID)) := by
  induction rs with
  | nil =>
    intro i s
    have h : ¬ ((i : Int) < (0 : Int) - c.argN) := by rw [hN]; omega
    simp only [trimLoop, h, if_false]
    simp [runCalls]
  | cons r rest ih =>
    intro i s
    by_cases h : (i : Int) < ((r :: rest).length : Int) - c.argN
    · have hk : ((r :: rest).length - N - i + 1) / 2 = (rest.length - N - (i + 1) + 1) / 2 + 1 := by
        rw [hN] at h
        simp only [List.length_cons] at h ⊢
        omega
      obtain ⟨h1, h2, h3, h4, h5⟩ := ih (i + 1) (c.deleteRecord exec s r.ID).state
      rw [hk]
      simp only [trimLoop, h, if_true, List.drop_succ_cons, List.take_succ_cons, List.map_cons]
      refine ⟨h1, ?_, ?_, h4, ?_⟩
      · rw [h2]; omega
      · rw [h3]; simp [Config.deleteRecord]
      · rw [h5]; simp [Config.deleteRecord, runCalls]
    · have hk : ((r :: rest).length - N - i + 1) / 2 = 0 := by
        rw [hN] at h
        simp only [List.length_cons] at h ⊢
        omega
      rw [hk]
      simp only [trimLoop, h, if_false]
      simp [runCalls]

/-- Without a record of content `ip` the scan of lines 150 to 155 finds nothing. -/
theorem any_content_false (ip : String) (rs : List DNSRecord) (hne : ∀ r ∈ rs, r.Content ≠ ip) :
    rs.any (fun r => decide (r.Content = ip)) = false := by
  rw [List.any_eq_false]
  intro r hr
  simpa using hne r hr

/-- The path of lines 164 to 178: with `1 ≤ N = argN ≤ len(rs)` and no record
of content `ip`, the run deletes the first `k = (len(rs) - N + 1) / 2` records
and then updates `rs[k]`, whatever the provider answers to the deletes. -/
theorem addressMode_trim {σ : Type} (c : Config) (ip : String) (exec : σ → Call → σ × Bool)
    (s : σ) (rs : List DNSRecord) (N : Nat) (hN : c.argN = (N : Int)) (h1 : 1 ≤ N)
    (hlen : N ≤ rs.length) (hne : ∀ r ∈ rs, r.Content ≠ ip) :
    ∃ r, rs[(rs.length - N + 1) / 2]? = some r ∧
      (addressMode c ip exec s rs).calls =
        (rs.take ((rs.length - N + 1) / 2)).map (fun r => Call.delete c.zoneID r.ID) ++
          [Call.update c.zoneID r.ID
            { Typ := c.recordType, Name := c.recordName, Content := ip, Proxied := !c.noProxy }] ∧
      (addressMode c ip exec s rs).exit =
        (if (exec (runCalls exec s
              ((rs.take ((rs.length - N + 1) / 2)).map (fun r => Call.delete c.zoneID r.ID)))
            (Call.update c.zoneID r.ID
              { Typ := c.recordType, Name := c.recordName, Content := ip
                Proxied := !c.noProxy })).2
          then Exit.fatal "update A record: " else Exit.ok "A record updated") ∧
      (addressMode c ip exec s rs).state =
        (exec (runCalls exec s
              ((rs.take ((rs.length - N + 1) / 2)).map (fun r => Call.delete c.zoneID r.ID)))
            (Call.update c.zoneID r.ID
              { Typ := c.recordType, Name := c.recordName, Content := ip
                Proxied := !c.noProxy })).1 := by
  have hk : (rs.length - N + 1) / 2 < rs.length := by omega
  refine ⟨rs[(rs.length - N + 1) / 2], List.getElem?_eq_getElem hk, ?_⟩
  have hany := any_content_false ip rs hne
  have hlt : ¬ ((rs.length : Int) < c.argN) := by rw [hN]; omega
  have hdrop : rs.drop ((rs.length - N + 1) / 2) =
      rs[(rs.length - N + 1) / 2] :: rs.drop ((rs.length - N + 1) / 2 + 1) :=
    List.drop_eq_getElem_cons hk
  by_cases hgt : (rs.length : Int) > c.argN
  · obtain ⟨t1, _, t3, t4, t5⟩ := trimLoop_spec c exec N hN rs 0 s
    simp only [Nat.sub_zero] at t1 t3 t5
    rw [hdrop] at t1
    simp only [addressMode, hany, hlt, hgt, if_true, if_false, t4, t1, t3, t5, Bool.false_eq_true,
      Config.update]
    simp
  · have hk0 : (rs.length - N + 1) / 2 = 0 := by rw [hN] at hgt; omega
    simp only [hk0]
    cases rs with
    | nil => simp at hlen; omega
    | cons r0 rest =>
      simp only [addressMode, hany, hlt, hgt, if_true, if_false, Bool.false_eq_true, Config.update]
      simp [runCalls]

/-- With type `"A"`, `argN` at least 1 and an address from the service, the
switch runs the address case. -/
theorem dispatch_address {σ : Type} (c : Config) (ip : String) (exec : σ → Call → σ × Bool)
    (s : σ) (rs : List DNSRecord) (hA : c.recordType = "A") (h1 : 1 ≤ c.argN) :
    dispatch c (some ip) exec s rs = addressMode c ip exec s rs := by
  have h : ¬ c.argN < 1 := by omega
  simp [dispatch, hA, h]

/-- With type `"CNAME"` the switch runs the alias case. -/
theorem dispatch_alias {σ : Type} (c : Config) (getIP : Option String)
    (exec : σ → Call → σ × Bool) (s : σ) (rs : List DNSRecord) (hC : c.recordType = "CNAME") :
    dispatch c getIP exec s rs = aliasMode c exec s rs := by
  have h : ¬ ("CNAME" = "A") := by decide
  simp [dispatch, hC, h]

/-- The growth path of lines 156 to 163: one create and nothing else. -/
theorem addressMode_grow {σ : Type} (c : Config) (ip : String) (exec : σ → Call → σ × Bool)
    (s : σ) (rs : List DNSRecord) (hlt : (rs.length : Int) < c.argN)
    (hne : ∀ r ∈ rs, r.Content ≠ ip) :
    addressMode c ip exec s rs =
      { state := (c.add exec s ip).state, calls := [(c.add exec s ip).call]
        logs := (c.add exec s ip).logs
        exit := if (c.add exec s ip).err then .fatal "add A record: " else .ok "A record added" } := by
  simp [addressMode, any_content_false ip rs hne, hlt]

/-- Claim C10. Trim-loop bound and index safety: for pool size `N ≥ 1` and a
slice of `M ≥ N` records none of which has the resolved address, the trimming
loop makes exactly `⌈(M - N) / 2⌉` passes (twice the count is `M - N` rounded
up to an even number), the slice held when the update is issued has
`M - ⌈(M - N) / 2⌉` records, at least `N` and so at least 1, no `rs[0]` in the
loop is out of range, and the run does not end in an index panic. For `M = N`
the loop is not entered, which is the case of zero passes. -/
theorem trim_loop_bound_and_index_safety {σ : Type} (c : Config) (ip : String)
    (exec : σ → Call → σ × Bool) (s : σ) (rs : List DNSRecord) (N : Nat)
    (hA : c.recordType = "A") (hN : c.argN = (N : Int)) (h1 : 1 ≤ N) (hlen : N ≤ rs.length)
    (hne : ∀ r ∈ rs, r.Content ≠ ip) :
    (trimLoop c exec 0 s rs).i = (rs.length - N + 1) / 2 ∧
    2 * (trimLoop c exec 0 s rs).i = (rs.length - N) + (rs.length - N) % 2 ∧
    (trimLoop c exec 0 s rs).rs.length = rs.length - (rs.length - N + 1) / 2 ∧
    N ≤ (trimLoop c exec 0 s rs).rs.length ∧
    1 ≤ (trimLoop c exec 0 s rs).rs.length ∧
    (trimLoop c exec 0 s rs).panicked = false ∧
    (dispatch c (some ip) exec s rs).exit ≠ Exit.indexPanic := by
  obtain ⟨t1, t2, _, t4, _⟩ := trimLoop_spec c exec N hN rs 0 s
  simp only [Nat.sub_zero, Nat.zero_add] at t1 t2
  have hlenrs : (trimLoop c exec 0 s rs).rs.length = rs.length - (rs.length - N + 1) / 2 := by
    rw [t1, List.length_drop]
  refine ⟨t2, ?_, hlenrs, ?_, ?_, t4, ?_⟩
  · rw [t2]; omega
  · rw [hlenrs]; omega
  · rw [hlenrs]; omega
  · rw [dispatch_address c ip exec s rs hA (by rw [hN]; omega)]
    obtain ⟨r, _, _, hexit, _⟩ := addressMode_trim c ip exec s rs N hN h1 hlen hne
    rw [hexit]
    split <;> simp

/-- Witness of C10: pool size 1 and a slice of 4 records. -/
theorem trim_loop_bound_and_index_safety_witness :
    (trimLoop (sampleA 1) (scripted (fun _ => false)) 0 0
        [mkRecord "1" "a" 1, mkRecord "2" "b" 2, mkRecord "3" "c" 3, mkRecord "4" "d" 4]).i = 2 ∧
    (trimLoop (sampleA 1) (scripted (fun _ => false)) 0 0
        [mkRecord "1" "a" 1, mkRecord "2" "b" 2, mkRecord "3" "c" 3,
          mkRecord "4" "d" 4]).rs.length = 2 := by
  have h := trim_loop_bound_and_index_safety (sampleA 1) "9.9.9.9" (scripted (fun _ => false)) 0
    [mkRecord "1" "a" 1, mkRecord "2" "b" 2, mkRecord "3" "c" 3, mkRecord "4" "d" 4] 1
    rfl rfl (by decide) (by decide) (by decide)
  exact ⟨h.1, h.2.2.1⟩

/-- Claim C9. Best-effort trimming: in an address run with `M > N ≥ 1` and no
record of the resolved address, the calls issued are the same list for every
provider and every provider state, so for every pattern of successes and
failures of the deletes: the deletes of the first `(M - N + 1) / 2` records in
order, then the update of the record that follows them. The run is fatal
exactly when that update returns an error, and ends in success otherwise. In
the growth path the run is fatal exactly when the create returns an error. -/
theorem best_effort_trimming (c : Config) (ip : String) (rs : List DNSRecord) (N : Nat)
    (hA : c.recordType = "A") (hN : c.argN = (N : Int)) (h1 : 1 ≤ N) (hgt : N < rs.length)
    (hne : ∀ r ∈ rs, r.Content ≠ ip) :
    (∃ r, rs[(rs.length - N + 1) / 2]? = some r ∧
      ∀ (σ : Type) (exec : σ → Call → σ × Bool) (s : σ),
        (dispatch c (some ip) exec s rs).calls =
          (rs.take ((rs.length - N + 1) / 2)).map (fun r => Call.delete c.zoneID r.ID) ++
            [Call.update c.zoneID r.ID
              { Typ := c.recordType, Name := c.recordName, Content := ip
                Proxied := !c.noProxy }] ∧
        (dispatch c (some ip) exec s rs).exit =
          (if (exec (runCalls exec s
                ((rs.take ((rs.length - N + 1) / 2)).map (fun r => Call.delete c.zoneID r.ID)))
              (Call.update c.zoneID r.ID
                { Typ := c.recordType, Name := c.recordName, Content := ip
                  Proxied := !c.noProxy })).2
            then Exit.fatal "update A record: " else Exit.ok "A record updated")) ∧
    (∀ (small : List DNSRecord), (small.length : Int) < c.argN →
      (∀ r ∈ small, r.Content ≠ ip) →
      ∀ (σ : Type) (exec : σ → Call → σ × Bool) (s : σ),
        (dispatch c (some ip) exec s small).exit =
          (if (exec s (Call.create c.zoneID
                { Typ := c.recordType, Name := c.recordName, Content := ip
                  Proxied := !c.noProxy })).2
            then Exit.fatal "add A record: " else Exit.ok "A record added")) := by
  have hN1 : 1 ≤ c.argN := by rw [hN]; omega
  constructor
  · have hk : (rs.length - N + 1) / 2 < rs.length := by omega
    refine ⟨rs[(rs.length - N + 1) / 2], List.getElem?_eq_getElem hk, ?_⟩
    intro σ exec s
    obtain ⟨r, hr, hcalls, hexit, _⟩ :=
      addressMode_trim c ip exec s rs N hN h1 (Nat.le_of_lt hgt) hne
    rw [List.getElem?_eq_getElem hk] at hr
    cases hr
    rw [dispatch_address c ip exec s rs hA hN1]
    exact ⟨hcalls, hexit⟩
  · intro small hlt hsm σ exec s
    rw [dispatch_address c ip exec s small hA hN1, addressMode_grow c ip exec s small hlt hsm]
    simp [Config.add]

/-- Witness of C9: pool size 1, three records, every delete failing. -/
theorem best_effort_trimming_witness :
    (dispatch (sampleA 1) (some "9.9.9.9") (scripted (fun _ => true)) 0
        [mkRecord "1" "a" 1, mkRecord "2" "b" 2, mkRecord "3" "c" 3]).calls =
      (dispatch (sampleA 1) (some "9.9.9.9") (scripted (fun _ => false)) 0
        [mkRecord "1" "a" 1, mkRecord "2" "b" 2, mkRecord "3" "c" 3]).calls := by
  obtain ⟨⟨r, _, h⟩, _⟩ := best_effort_trimming (sampleA 1) "9.9.9.9"
    [mkRecord "1" "a" 1, mkRecord "2" "b" 2, mkRecord "3" "c" 3] 1 rfl rfl (by decide)
    (by decide) (by decide)
  rw [(h Nat (scripted (fun _ => true)) 0).1, (h Nat (scripted (fun _ => false)) 0).1]

/-- The scan of lines 150 to 155 finds a record of content `ip`: the address
case ends at once. -/
theorem addressMode_found {σ : Type} (c : Config) (ip : String) (exec : σ → Call → σ × Bool)
    (s : σ) (rs : List DNSRecord) (hex : ∃ r ∈ rs, r.Content = ip) :
    addressMode c ip exec s rs =
      { state := s, calls := [], logs := [], exit := .ok "record already exists" } := by
  have hany : rs.any (fun r => decide (r.Content = ip)) = true := by
    rw [List.any_eq_true]
    obtain ⟨r, hr, hc⟩ := hex
    exact ⟨r, hr, by simpa using hc⟩
  simp [addressMode, hany]

/-- Claim C5. Address short-circuit: with type `"A"`, pool size at least 1 and
a slice of any length in which some record has the resolved address, the run
ends in success, issues no call and leaves the provider as it was. -/
theorem address_short_circuit {σ : Type} (c : Config) (ip : String)
    (exec : σ → Call → σ × Bool) (s : σ) (rs : List DNSRecord) (hA : c.recordType = "A")
    (h1 : 1 ≤ c.argN) (hex : ∃ r ∈ rs, r.Content = ip) :
    dispatch c (some ip) exec s rs =
      { state := s, calls := [], logs := [], exit := .ok "record already exists" } := by
  rw [dispatch_address c ip exec s rs hA h1]
  exact addressMode_found c ip exec s rs hex

/-- Witness of C5: three records for pool size 1, the second one matching. -/
theorem address_short_circuit_witness :
    (dispatch (sampleA 1) (some "b") (scripted (fun _ => false)) 0
        [mkRecord "1" "a" 1, mkRecord "2" "b" 2, mkRecord "3" "c" 3]).calls = [] := by
  rw [address_short_circuit (sampleA 1) "b" (scripted (fun _ => false)) 0
    [mkRecord "1" "a" 1, mkRecord "2" "b" 2, mkRecord "3" "c" 3] rfl (by decide)
    ⟨mkRecord "2" "b" 2, by decide, rfl⟩]

/-- Claim C8. Unsupported type: when the record type of the declaration is
neither exactly `"A"` nor exactly `"CNAME"`, the run ends in a fatal error,
issues no call and leaves the provider as it was; the switch itself ends in
the fatal error of its default case whatever the slice and the provider. -/
theorem unsupported_type {σ : Type} (w : World σ) (s : σ) (c : Config)
    (hc : NewConfig w.record w.authEmail w.authKey = some c) (hA : c.recordType ≠ "A")
    (hC : c.recordType ≠ "CNAME") :
    (main w s).calls = [] ∧ (∃ msg, (main w s).exit = Exit.fatal msg) ∧ (main w s).state = s ∧
    ∀ (zid : String) (getIP : Option String) (exec : σ → Call → σ × Bool) (st : σ)
      (rs : List DNSRecord),
      dispatch { c with zoneID := zid } getIP exec st rs =
        { state := st, calls := [], logs := [], exit := .fatal "unimplemented record type: " } := by
  have hd : ∀ (zid : String) (getIP : Option String) (exec : σ → Call → σ × Bool) (st : σ)
      (rs : List DNSRecord),
      dispatch { c with zoneID := zid } getIP exec st rs =
        { state := st, calls := [], logs := [], exit := .fatal "unimplemented record type: " } := by
    intro zid getIP exec st rs
    simp [dispatch, hA, hC]
  refine ⟨?_, ?_, ?_, hd⟩
  all_goals
    simp only [main, hc]
    split
    · simp
    · split
      · simp
      · split
        · simp
        · simp [hd]

/-- Witness of C8: the lower-case type `cname`. -/
theorem unsupported_type_witness :
    (main (cloudflare "example.com:proxy:www:cname:b.example.net" none) twoAliases).calls = [] :=
  (unsupported_type (cloudflare "example.com:proxy:www:cname:b.example.net" none) twoAliases
    { authEmail := "user@example.com", authKey := "key", zoneName := "example.com", zoneID := ""
      recordName := "www.example.com", recordType := "cname", arg := "b.example.net", argN := 0
      noProxy := false }
    (by decide) (by decide) (by decide)).1

/-- A create that returns no error adds one record with the fields sent. -/
theorem exec_create_ok (fresh : Nat → String) (outage : Nat → Bool) (p : Provider) (z : String)
    (rr : RecordData) (h : (Provider.exec fresh outage p (Call.create z rr)).2 = false) :
    (Provider.exec fresh outage p (Call.create z rr)).1.records = p.records ++
      [{ ID := fresh p.clock, Typ := rr.Typ, Name := rr.Name, Content := rr.Content
         Proxied := rr.Proxied, ModifiedOn := p.clock }] := by
  unfold Provider.exec at h ⊢
  by_cases ho : outage p.clock = true
  · simp [ho] at h
  · simp [ho]

/-- An update that returns no error found the identifier and rewrote the
records that carry it. -/
theorem exec_update_ok (fresh : Nat → String) (outage : Nat → Bool) (p : Provider) (z : String)
    (rid : String) (rr : RecordData)
    (h : (Provider.exec fresh outage p (Call.update z rid rr)).2 = false) :
    (∃ r0 ∈ p.records, r0.ID = rid) ∧
    (Provider.exec fresh outage p (Call.update z rid rr)).1.records =
      p.records.map (fun r =>
        if r.ID = rid then
          { ID := r.ID, Typ := rr.Typ, Name := rr.Name, Content := rr.Content
            Proxied := rr.Proxied, ModifiedOn := p.clock }
        else r) := by
  unfold Provider.exec at h ⊢
  by_cases ho : outage p.clock = true
  · simp [ho] at h
  · by_cases hany : p.records.any (fun r => decide (r.ID = rid)) = true
    · refine ⟨?_, by simp [ho, hany]⟩
      rw [List.any_eq_true] at hany
      obtain ⟨r0, hr0, hid⟩ := hany
      exact ⟨r0, hr0, by simpa using hid⟩
    · simp [ho, hany] at h

/-- A create outside an outage is accepted: the store gains one record with
the fields sent, the clock as its instant and a fresh identifier. -/
theorem exec_create_accepted (fresh : Nat → String) (outage : Nat → Bool) (p : Provider)
    (z : String) (rr : RecordData) (ho : outage p.clock = false) :
    Provider.exec fresh outage p (Call.create z rr) =
      ({ records := p.records ++
            [{ ID := fresh p.clock, Typ := rr.Typ, Name := rr.Name, Content := rr.Content
               Proxied := rr.Proxied, ModifiedOn := p.clock }]
         clock := p.clock + 1 }, false) := by
  simp [Provider.exec, ho]

/-- An update of a stored identifier outside an outage is accepted: every
record with that identifier takes the fields sent and the clock as instant. -/
theorem exec_update_accepted (fresh : Nat → String) (outage : Nat → Bool) (p : Provider)
    (z : String) (rid : String) (rr : RecordData) (ho : outage p.clock = false)
    (hin : ∃ r0 ∈ p.records, r0.ID = rid) :
    Provider.exec fresh outage p (Call.update z rid rr) =
      ({ records := p.records.map (fun r =>
            if r.ID = rid then
              { ID := r.ID, Typ := rr.Typ, Name := rr.Name, Content := rr.Content
                Proxied := rr.Proxied, ModifiedOn := p.clock }
            else r)
         clock := p.clock + 1 }, false) := by
  have hany : p.records.any (fun r => decide (r.ID = rid)) = true := by
    rw [List.any_eq_true]
    obtain ⟨r0, hr0, hid⟩ := hin
    exact ⟨r0, hr0, by simpa using hid⟩
  simp [Provider.exec, ho, hany]

/-- Claim C3. Pool growth: in an address run with pool size `argN` and a slice
of fewer records, none of which has the resolved address, the whole run is
one create, with the resolved address and the configured proxy flag, handed
to the provider: the state reached is the one the provider returns for that
create, the run is fatal exactly when the create returns an error and ends in
success otherwise, and no delete or update is issued. Against the record
store, outside an outage, the create is accepted: the run ends in success,
the store holds its former records and one new record with the configured
type and name, the resolved address and the configured proxy flag, and the
record set of that name and type has exactly one record more, whatever the
deficit. -/
theorem pool_growth {σ : Type} (c : Config) (ip : String) (exec : σ → Call → σ × Bool) (s : σ)
    (rs : List DNSRecord) (hA : c.recordType = "A") (hlt : (rs.length : Int) < c.argN)
    (hne : ∀ r ∈ rs, r.Content ≠ ip) :
    dispatch c (some ip) exec s rs =
      { state := (exec s (Call.create c.zoneID
          { Typ := c.recordType, Name := c.recordName, Content := ip
            Proxied := !c.noProxy })).1
        calls := [Call.create c.zoneID
          { Typ := c.recordType, Name := c.recordName, Content := ip, Proxied := !c.noProxy }]
        logs := if (exec s (Call.create c.zoneID
          { Typ := c.recordType, Name := c.recordName, Content := ip
            Proxied := !c.noProxy })).2 then ["add " ++ c.recordType ++ ": "] else []
        exit := if (exec s (Call.create c.zoneID
          { Typ := c.recordType, Name := c.recordName, Content := ip
            Proxied := !c.noProxy })).2 then .fatal "add A record: " else .ok "A record added" } ∧
    ∀ (fresh : Nat → String) (outage : Nat → Bool) (p : Provider), outage p.clock = false →
      (dispatch c (some ip) (Provider.exec fresh outage) p rs).exit = Exit.ok "A record added" ∧
      (dispatch c (some ip) (Provider.exec fresh outage) p rs).state.records =
        p.records ++
          [{ ID := fresh p.clock, Typ := c.recordType, Name := c.recordName, Content := ip
             Proxied := !c.noProxy, ModifiedOn := p.clock }] ∧
      ((dispatch c (some ip) (Provider.exec fresh outage) p rs).state.matching
          c.recordType c.recordName).length =
        (p.matching c.recordType c.recordName).length + 1 := by
  have h1 : 1 ≤ c.argN := by omega
  have hrun : ∀ (τ : Type) (ex : τ → Call → τ × Bool) (t : τ),
      dispatch c (some ip) ex t rs =
        { state := (ex t (Call.create c.zoneID
            { Typ := c.recordType, Name := c.recordName, Content := ip
              Proxied := !c.noProxy })).1
          calls := [Call.create c.zoneID
            { Typ := c.recordType, Name := c.recordName, Content := ip, Proxied := !c.noProxy }]
          logs := if (ex t (Call.create c.zoneID
            { Typ := c.recordType, Name := c.recordName, Content := ip
              Proxied := !c.noProxy })).2 then ["add " ++ c.recordType ++ ": "] else []
          exit := if (ex t (Call.create c.zoneID
            { Typ := c.recordType, Name := c.recordName, Content := ip
              Proxied := !c.noProxy })).2 then .fatal "add A record: "
            else .ok "A record added" } := by
    intro τ ex t
    rw [dispatch_address c ip ex t rs hA h1, addressMode_grow c ip ex t rs hlt hne]
    rfl
  refine ⟨hrun σ exec s, ?_⟩
  intro fresh outage p ho
  rw [hrun Provider (Provider.exec fresh outage) p, exec_create_accepted fresh outage p _ _ ho]
  refine ⟨by simp, rfl, ?_⟩
  simp [Provider.matching, List.filter_append]

/-- Witness of C3: pool size 5 against the three-record store, whose records
do not have the resolved address: the run ends in success and the record set
has four records. -/
theorem pool_growth_witness :
    (dispatch (sampleA 5) (some "9.9.9.9") (Provider.exec (fun _ => "n") (fun _ => false))
        threeAddresses (sortRecords threeAddresses.records)).exit = Exit.ok "A record added" ∧
    ((dispatch (sampleA 5) (some "9.9.9.9") (Provider.exec (fun _ => "n") (fun _ => false))
        threeAddresses (sortRecords threeAddresses.records)).state.matching
          "A" "www.example.com").length = 4 :=
  ⟨((pool_growth (sampleA 5) "9.9.9.9" (Provider.exec (fun _ => "n") (fun _ => false))
      threeAddresses (sortRecords threeAddresses.records) rfl (by decide) (by decide)).2
      (fun _ => "n") (fun _ => false) threeAddresses rfl).1,
   ((pool_growth (sampleA 5) "9.9.9.9" (Provider.exec (fun _ => "n") (fun _ => false))
      threeAddresses (sortRecords threeAddresses.records) rfl (by decide) (by decide)).2
      (fun _ => "n") (fun _ => false) threeAddresses rfl).2.2⟩

/-- Claim C4. Alias mode: with type `"CNAME"` and target `c.arg`. On an empty
slice the whole run is one create with content `c.arg` and the configured
proxy flag, handed to the provider: the state reached is the one the provider
returns, and the run is fatal exactly when the create returns an error. When
the first record has content `c.arg` the run issues nothing, leaves the
provider as it was and ends in success. Otherwise the whole run is one
update, of that first record, to content `c.arg` and the configured proxy
flag, handed to the provider, fatal exactly when the update returns an error.
No delete is ever issued. Against the record store, outside an outage, the
create is accepted and adds one record with content `c.arg` and the
configured flag, and the update of a stored first record is accepted and
gives every record with its identifier the content `c.arg` and the configured
flag; both runs end in success. This holds for every slice, sorted or not; on
a sorted one the first record is the oldest. -/
theorem alias_mode {σ : Type} (c : Config) (getIP : Option String) (exec : σ → Call → σ × Bool)
    (s : σ) (rs : List DNSRecord) (hC : c.recordType = "CNAME") :
    (rs = [] → dispatch c getIP exec s rs =
      { state := (exec s (Call.create c.zoneID
          { Typ := c.recordType, Name := c.recordName, Content := c.arg
            Proxied := !c.noProxy })).1
        calls := [Call.create c.zoneID
          { Typ := c.recordType, Name := c.recordName, Content := c.arg
            Proxied := !c.noProxy }]
        logs := if (exec s (Call.create c.zoneID
          { Typ := c.recordType, Name := c.recordName, Content := c.arg
            Proxied := !c.noProxy })).2 then ["add " ++ c.recordType ++ ": "] else []
        exit := if (exec s (Call.create c.zoneID
          { Typ := c.recordType, Name := c.recordName, Content := c.arg
            Proxied := !c.noProxy })).2 then .fatal "add CNAME: "
          else .ok "CNAME record added" }) ∧
    (∀ r rest, rs = r :: rest → r.Content = c.arg → dispatch c getIP exec s rs =
      { state := s, calls := [], logs := [], exit := .ok "record already exists" }) ∧
    (∀ r rest, rs = r :: rest → r.Content ≠ c.arg → dispatch c getIP exec s rs =
      { state := (exec s (Call.update c.zoneID r.ID
          { Typ := c.recordType, Name := c.recordName, Content := c.arg
            Proxied := !c.noProxy })).1
        calls := [Call.update c.zoneID r.ID
          { Typ := c.recordType, Name := c.recordName, Content := c.arg
            Proxied := !c.noProxy }]
        logs := []
        exit := if (exec s (Call.update c.zoneID r.ID
          { Typ := c.recordType, Name := c.recordName, Content := c.arg
            Proxied := !c.noProxy })).2 then .fatal "update CNAME record: "
          else .ok "CNAME record updated" }) ∧
    (∀ z rid, Call.delete z rid ∉ (dispatch c getIP exec s rs).calls) ∧
    (∀ (fresh : Nat → String) (outage : Nat → Bool) (p : Provider), outage p.clock = false →
      (rs = [] →
        (dispatch c getIP (Provider.exec fresh outage) p rs).exit =
          Exit.ok "CNAME record added" ∧
        (dispatch c getIP (Provider.exec fresh outage) p rs).state.records =
          p.records ++
            [{ ID := fresh p.clock, Typ := c.recordType, Name := c.recordName
               Content := c.arg, Proxied := !c.noProxy, ModifiedOn := p.clock }]) ∧
      (∀ r rest, rs = r :: rest → r.Content ≠ c.arg → r ∈ p.records →
        (dispatch c getIP (Provider.exec fresh outage) p rs).exit =
          Exit.ok "CNAME record updated" ∧
        (dispatch c getIP (Provider.exec fresh outage) p rs).state.records =
          p.records.map (fun x =>
            if x.ID = r.ID then
              { ID := x.ID, Typ := c.recordType, Name := c.recordName, Content := c.arg
                Proxied := !c.noProxy, ModifiedOn := p.clock }
            else x))) := by
  have hnil : ∀ (τ : Type) (ex : τ → Call → τ × Bool) (t : τ),
      dispatch c getIP ex t [] =
        { state := (ex t (Call.create c.zoneID
            { Typ := c.recordType, Name := c.recordName, Content := c.arg
              Proxied := !c.noProxy })).1
          calls := [Call.create c.zoneID
            { Typ := c.recordType, Name := c.recordName, Content := c.arg
              Proxied := !c.noProxy }]
          logs := if (ex t (Call.create c.zoneID
            { Typ := c.recordType, Name := c.recordName, Content := c.arg
              Proxied := !c.noProxy })).2 then ["add " ++ c.recordType ++ ": "] else []
          exit := if (ex t (Call.create c.zoneID
            { Typ := c.recordType, Name := c.recordName, Content := c.arg
              Proxied := !c.noProxy })).2 then .fatal "add CNAME: "
            else .ok "CNAME record added" } := by
    intro τ ex t
    rw [dispatch_alias c getIP ex t [] hC]
    rfl
  have hupd : ∀ (τ : Type) (ex : τ → Call → τ × Bool) (t : τ) (r : DNSRecord)
      (rest : List DNSRecord), r.Content ≠ c.arg →
      dispatch c getIP ex t (r :: rest) =
        { state := (ex t (Call.update c.zoneID r.ID
            { Typ := c.recordType, Name := c.recordName, Content := c.arg
              Proxied := !c.noProxy })).1
          calls := [Call.update c.zoneID r.ID
            { Typ := c.recordType, Name := c.recordName, Content := c.arg
              Proxied := !c.noProxy }]
          logs := []
          exit := if (ex t (Call.update c.zoneID r.ID
            { Typ := c.recordType, Name := c.recordName, Content := c.arg
              Proxied := !c.noProxy })).2 then .fatal "update CNAME record: "
            else .ok "CNAME record updated" } := by
    intro τ ex t r rest hr
    rw [dispatch_alias c getIP ex t (r :: rest) hC]
    simp only [aliasMode, hr, if_false, Config.update]
  refine ⟨?_, ?_, ?_, ?_, ?_⟩
  · intro h
    subst h
    exact hnil σ exec s
  · intro r rest h hr
    subst h
    rw [dispatch_alias c getIP exec s (r :: rest) hC]
    simp [aliasMode, hr]
  · intro r rest h hr
    subst h
    exact hupd σ exec s r rest hr
  · intro z rid
    cases rs with
    | nil =>
      rw [hnil σ exec s]
      simp
    | cons r rest =>
      by_cases hr : r.Content = c.arg
      · rw [dispatch_alias c getIP exec s (r :: rest) hC]
        simp [aliasMode, hr]
      · rw [hupd σ exec s r rest hr]
        simp
  · intro fresh outage p ho
    constructor
    · intro h
      subst h
      rw [hnil Provider (Provider.exec fresh outage) p, exec_create_accepted fresh outage p _ _ ho]
      exact ⟨by simp, rfl⟩
    · intro r rest h hr hin
      subst h
      rw [hupd Provider (Provider.exec fresh outage) p r rest hr,
        exec_update_accepted fresh outage p _ _ _ ho ⟨r, hin, rfl⟩]
      exact ⟨by simp, rfl⟩

/-- Witness of C4: target `b.example.net` against the two-alias store, on the
slice of its records: the run ends in success and record 1 has the target. -/
theorem alias_mode_witness :
    (dispatch { sampleA 0 with recordType := "CNAME", arg := "b.example.net" } none
        (Provider.exec (fun _ => "n") (fun _ => false)) twoAliases twoAliases.records).exit =
      Exit.ok "CNAME record updated" ∧
    (dispatch { sampleA 0 with recordType := "CNAME", arg := "b.example.net" } none
        (Provider.exec (fun _ => "n") (fun _ => false)) twoAliases
        twoAliases.records).state.records =
      [{ ID := "1", Typ := "CNAME", Name := "www.example.com", Content := "b.example.net"
         Proxied := true, ModifiedOn := 100 },
       { ID := "2", Typ := "CNAME", Name := "www.example.com", Content := "c.example.net"
         Proxied := true, ModifiedOn := 20 }] :=
  ((alias_mode { sampleA 0 with recordType := "CNAME", arg := "b.example.net" } none
      (Provider.exec (fun _ => "n") (fun _ => false)) twoAliases twoAliases.records rfl).2.2.2.2
      (fun _ => "n") (fun _ => false) twoAliases rfl).2
    { ID := "1", Typ := "CNAME", Name := "www.example.com", Content := "a.example.net"
      Proxied := true, ModifiedOn := 10 }
    [{ ID := "2", Typ := "CNAME", Name := "www.example.com", Content := "c.example.net"
       Proxied := true, ModifiedOn := 20 }]
    rfl (by decide) (by decide)

/-- Claim C1, evaluated where it fails: pool size 1 and three records of
instants 10, 20, 30, none with the resolved address. The claim asks for two
deletes (records 1 and 2) and the update of record 3; the run deletes record 1
only and updates record 2, so two records remain. -/
theorem pool_shrink_stops_half_way :
    (main (cloudflare "example.com:proxy:www:A:1" (some "9.9.9.9")) threeAddresses).calls =
      [Call.delete "zone-1" "1",
       Call.update "zone-1" "2"
        { Typ := "A", Name := "www.example.com", Content := "9.9.9.9", Proxied := true }] ∧
    (main (cloudflare "example.com:proxy:www:A:1" (some "9.9.9.9"))
        threeAddresses).state.records.length = 2 := by
  decide

/-- A syntax error of the fast path comes with the value 0. -/
theorem atoiFast_syntax_error_is_zero (l : List Char)
    (h : (atoiFast l).2 = some NumError.ErrSyntax) : (atoiFast l).1 = 0 := by
  unfold atoiFast at h ⊢
  cases l with
  | nil => rfl
  | cons c cs =>
    dsimp only at h ⊢
    generalize (if c = '-' ∨ c = '+' then cs else c :: cs) = body at h ⊢
    split_ifs at h ⊢ <;> simp_all

/-- A syntax error of `ParseInt` comes with the value 0. -/
theorem parseInt_syntax_error_is_zero (l : List Char)
    (h : (ParseInt l).2 = some NumError.ErrSyntax) : (ParseInt l).1 = 0 := by
  unfold ParseInt at h ⊢
  cases l with
  | nil => rfl
  | cons c cs =>
    dsimp only at h ⊢
    generalize ParseUint (if c = '+' ∨ c = '-' then cs else c :: cs) = res at h ⊢
    split at h
    · rfl
    · split_ifs at h <;> simp at h

/-- A syntax error of `Atoi` comes with the value 0. -/
theorem atoi_syntax_error_is_zero (s : String) (h : (Atoi s).2 = some NumError.ErrSyntax) :
    (Atoi s).1 = 0 := by
  unfold Atoi at h ⊢
  split_ifs at h ⊢
  · exact atoiFast_syntax_error_is_zero _ h
  · exact parseInt_syntax_error_is_zero _ h

/-- The address case never ends with the fatal error of the pool-size check. -/
theorem addressMode_exit_ne {σ : Type} (c : Config) (ip : String) (exec : σ → Call → σ × Bool)
    (s : σ) (rs : List DNSRecord) :
    (addressMode c ip exec s rs).exit ≠ Exit.fatal "argN < 1: " := by
  unfold addressMode
  split
  · simp
  · split
    · dsimp only
      split <;> simp
    · generalize (if (rs.length : Int) > c.argN then trimLoop c exec 0 s rs
          else { state := s, rs := rs, i := 0, calls := [], logs := [], panicked := false }) = t
      dsimp only
      split
      · simp
      · split
        · simp
        · dsimp only
          split <;> simp

/-- Claim C7 as the code has it. For a declaration of type `"A"` the pool size
is the value that `Atoi` returns for the argument, its error being dropped.
When `Atoi` reports a syntax error (the value is then 0) or the value is below
1, the run ends in a fatal error, issues no call and leaves the provider as it
was, and the switch itself ends in the fatal error of line 144. Conversely an
argument that `Atoi` parses without error to a value of at least 1 is never
rejected with that error. -/
theorem invalid_pool_size {σ : Type} (w : World σ) (s : σ) (c : Config)
    (hc : NewConfig w.record w.authEmail w.authKey = some c) (hA : c.recordType = "A") :
    c.argN = (Atoi c.arg).1 ∧
    (((Atoi c.arg).2 = some NumError.ErrSyntax ∨ (Atoi c.arg).1 < 1) →
      (main w s).calls = [] ∧ (∃ msg, (main w s).exit = Exit.fatal msg) ∧
      (main w s).state = s ∧
      ∀ (zid : String) (getIP : Option String) (exec : σ → Call → σ × Bool) (st : σ)
        (rs : List DNSRecord),
        dispatch { c with zoneID := zid } getIP exec st rs =
          { state := st, calls := [], logs := [], exit := .fatal "argN < 1: " }) ∧
    (((Atoi c.arg).2 = none ∧ 1 ≤ (Atoi c.arg).1) →
      (main w s).exit ≠ Exit.fatal "argN < 1: ") := by
  have hN : c.argN = (Atoi c.arg).1 := by
    simp only [NewConfig] at hc
    split at hc
    · simp only [Option.some.injEq] at hc
      subst hc
      rfl
    · cases hc
  refine ⟨hN, ?_, ?_⟩
  · intro hbad
    have hlt : c.argN < 1 := by
      rcases hbad with h | h
      · rw [hN, atoi_syntax_error_is_zero c.arg h]
        decide
      · rw [hN]
        exact h
    have hd : ∀ (zid : String) (getIP : Option String) (exec : σ → Call → σ × Bool) (st : σ)
        (rs : List DNSRecord),
        dispatch { c with zoneID := zid } getIP exec st rs =
          { state := st, calls := [], logs := [], exit := .fatal "argN < 1: " } := by
      intro zid getIP exec st rs
      simp [dispatch, hA, hlt]
    refine ⟨?_, ?_, ?_, hd⟩
    all_goals
      simp only [main, hc]
      split
      · simp
      · split
        · simp
        · split
          · simp
          · simp [hd]
  · intro hgood
    have hge : ¬ c.argN < 1 := by
      rw [hN]
      omega
    simp only [main, hc]
    split
    · simp
    · split
      · simp
      · split
        · simp
        · simp only [dispatch, hA, if_true, hge, if_false]
          split
          · simp
          · exact addressMode_exit_ne _ _ _ _ _

/-- Witness of C7 as amended: the argument `0` and the argument `two`. -/
theorem invalid_pool_size_witness :
    (main (cloudflare "example.com:proxy:www:A:0" (some "9.9.9.9")) threeAddresses).calls = [] ∧
    (main (cloudflare "example.com:proxy:www:A:two" (some "9.9.9.9")) threeAddresses).calls = [] :=
  ⟨((invalid_pool_size (cloudflare "example.com:proxy:www:A:0" (some "9.9.9.9")) threeAddresses
      { authEmail := "user@example.com", authKey := "key", zoneName := "example.com", zoneID := "",
        recordName := "www.example.com", recordType := "A", arg := "0", argN := 0,
        noProxy := false }
      (by decide) rfl).2.1 (Or.inr (by decide))).1,
   ((invalid_pool_size (cloudflare "example.com:proxy:www:A:two" (some "9.9.9.9")) threeAddresses
      { authEmail := "user@example.com", authKey := "key", zoneName := "example.com", zoneID := "",
        recordName := "www.example.com", recordType := "A", arg := "two", argN := 0,
        noProxy := false }
      (by decide) rfl).2.1 (Or.inl (by decide))).1⟩

/-- Claim C7 fails as stated: the argument `99999999999999999999` is too large
for `int`; `Atoi` returns the largest `int` with a range error, the error is
dropped, the check `argN < 1` passes and the run issues a create and ends in
success. The same value comes back when other text follows the digits. -/
theorem oversized_pool_size_is_accepted :
    Atoi "99999999999999999999" = (2 ^ 63 - 1, some NumError.ErrRange) ∧
    Atoi "99999999999999999999x" = (2 ^ 63 - 1, some NumError.ErrRange) ∧
    (main (cloudflare "example.com:proxy:www:A:99999999999999999999" (some "9.9.9.9"))
        threeAddresses).calls =
      [Call.create "zone-1"
        { Typ := "A", Name := "www.example.com", Content := "9.9.9.9", Proxied := true }] ∧
    (main (cloudflare "example.com:proxy:www:A:99999999999999999999" (some "9.9.9.9"))
        threeAddresses).exit = Exit.ok "A record added" := by
  decide

/-- Every call issued inside the trimming loop is a delete. -/
theorem trimLoop_calls_proxied {σ : Type} (c : Config) (exec : σ → Call → σ × Bool)
    (rs : List DNSRecord) :
    ∀ (i : Nat) (s : σ), ∀ call ∈ (trimLoop c exec i s rs).calls, call.proxied = none := by
  induction rs with
  | nil =>
    intro i s call h
    simp only [trimLoop] at h
    split at h <;> simp at h
  | cons r rest ih =>
    intro i s call h
    simp only [trimLoop] at h
    split at h
    · simp only [List.mem_cons] at h
      rcases h with h | h
      · subst h
        simp [Config.deleteRecord, Call.proxied]
      · exact ih _ _ call h
    · simp at h

/-- Every create and update issued by the address case carries `!c.noProxy`. -/
theorem addressMode_proxied {σ : Type} (c : Config) (ip : String) (exec : σ → Call → σ × Bool)
    (s : σ) (rs : List DNSRecord) :
    ∀ call ∈ (addressMode c ip exec s rs).calls, ∀ b, call.proxied = some b → b = !c.noProxy := by
  intro call hcall b hb
  unfold addressMode at hcall
  split at hcall
  · simp at hcall
  · split at hcall
    · simp only [Config.add, List.mem_singleton] at hcall
      subst hcall
      simp only [Call.proxied, Option.some.injEq] at hb
      exact hb.symm
    · generalize ht : (if (rs.length : Int) > c.argN then trimLoop c exec 0 s rs
          else { state := s, rs := rs, i := 0, calls := [], logs := [], panicked := false }) = t
        at hcall
      have hdel : ∀ call ∈ t.calls, call.proxied = none := by
        intro call h
        subst ht
        split at h
        · exact trimLoop_calls_proxied c exec rs 0 s call h
        · simp at h
      dsimp only at hcall
      split at hcall
      · rw [hdel call hcall] at hb
        cases hb
      · split at hcall
        · rw [hdel call hcall] at hb
          cases hb
        · simp only [Config.update, List.mem_append, List.mem_singleton] at hcall
          rcases hcall with h | h
          · rw [hdel call h] at hb
            cases hb
          · subst h
            simp only [Call.proxied, Option.some.injEq] at hb
            exact hb.symm

/-- Every create and update issued by the switch carries `!c.noProxy`. -/
theorem dispatch_proxied {σ : Type} (c : Config) (getIP : Option String)
    (exec : σ → Call → σ × Bool) (s : σ) (rs : List DNSRecord) :
    ∀ call ∈ (dispatch c getIP exec s rs).calls, ∀ b, call.proxied = some b → b = !c.noProxy := by
  intro call hcall b hb
  unfold dispatch at hcall
  split at hcall
  · split at hcall
    · simp at hcall
    · split at hcall
      · simp at hcall
      · exact addressMode_proxied c _ exec s rs call hcall b hb
  · split at hcall
    · unfold aliasMode at hcall
      split at hcall
      · simp only [Config.add, List.mem_singleton] at hcall
        subst hcall
        simp only [Call.proxied, Option.some.injEq] at hb
        exact hb.symm
      · split at hcall
        · simp at hcall
        · simp only [Config.update, List.mem_singleton] at hcall
          subst hcall
          simp only [Call.proxied, Option.some.injEq] at hb
          exact hb.symm
    · simp at hcall

/-- Claim C6 as the code has it. For every declaration of 5 parts, `NewConfig`
succeeds and the proxied flag `!noProxy` is false exactly when the lower-cased
second part is `noproxy`, written without a hyphen; for every other token,
the empty one included, it is true. Every create and update of the run sends
that flag. -/
theorem proxy_token {σ : Type} (w : World σ) (s : σ) (zone tok sub typ arg : String)
    (h : Split w.record ':' = [zone, tok, sub, typ, arg]) :
    ∃ c, NewConfig w.record w.authEmail w.authKey = some c ∧
      ((!c.noProxy) = false ↔ ToLower tok = "noproxy") ∧
      ((!c.noProxy) = true ↔ ToLower tok ≠ "noproxy") ∧
      ∀ call ∈ (main w s).calls, ∀ b, call.proxied = some b → b = !c.noProxy := by
  refine ⟨{ authEmail := w.authEmail, authKey := w.authKey, zoneName := zone, zoneID := "",
             recordName := sub ++ "." ++ zone, recordType := typ, arg := arg,
             argN := (Atoi arg).1, noProxy := decide (ToLower tok = "noproxy") },
    by simp only [NewConfig, h], by simp, by simp, ?_⟩
  intro call hcall b hb
  simp only [main, NewConfig, h] at hcall
  split at hcall
  · simp at hcall
  · split at hcall
    · simp at hcall
    · split at hcall
      · simp at hcall
      · simpa using dispatch_proxied _ _ _ _ _ call hcall b hb

/-- Witness of C6 as amended: the token `NoProxy`. -/
theorem proxy_token_witness :
    ∃ c, NewConfig (cloudflare "example.com:NoProxy:www:A:1" none).record
        (cloudflare "example.com:NoProxy:www:A:1" none).authEmail
        (cloudflare "example.com:NoProxy:www:A:1" none).authKey = some c ∧
      (!c.noProxy) = false := by
  obtain ⟨c, hc, hf, _, _⟩ := proxy_token (cloudflare "example.com:NoProxy:www:A:1" none)
    threeAddresses "example.com" "NoProxy" "www" "A" "1" (by decide)
  exact ⟨c, hc, hf.mpr (by decide)⟩

/-- Claim C6 fails as stated: the token `no-proxy`, which equals `no-proxy`
under any comparison, leaves the proxied flag true, and the create of the run
sends `Proxied = true`; it is the token `noproxy` that clears the flag. -/
theorem proxy_token_hyphen_counterexample :
    Split "example.com:no-proxy:www:A:5" ':' = ["example.com", "no-proxy", "www", "A", "5"] ∧
    ToLower "no-proxy" = "no-proxy" ∧
    (NewConfig "example.com:no-proxy:www:A:5" "" "").map (fun c => !c.noProxy) = some true ∧
    (main (cloudflare "example.com:no-proxy:www:A:5" (some "9.9.9.9")) threeAddresses).calls =
      [Call.create "zone-1"
        { Typ := "A", Name := "www.example.com", Content := "9.9.9.9", Proxied := true }] ∧
    (NewConfig "example.com:noproxy:www:A:5" "" "").map (fun c => !c.noProxy) = some false := by
  decide

/-- Once the declaration is parsed and the reading calls have answered, `main`
is the switch on the sorted listing. -/
theorem main_eq_dispatch {σ : Type} (w : World σ) (s : σ) (c : Config) (zid : String)
    (l : List DNSRecord) (hc : NewConfig w.record w.authEmail w.authKey = some c)
    (ha : w.authErr = false) (hz : w.zoneIDByName c.zoneName = some zid)
    (hl : w.dnsRecords s zid c.recordType c.recordName = some l) :
    main w s = dispatch { c with zoneID := zid } w.getIP w.exec s (w.sort l) := by
  simp [main, hc, ha, hz, hl]

/-- A run that ends in success got through authentication, zone lookup and
listing. -/
theorem main_ok_inv {σ : Type} (w : World σ) (s : σ) (c : Config) (line : String)
    (hc : NewConfig w.record w.authEmail w.authKey = some c)
    (hok : (main w s).exit = Exit.ok line) :
    w.authErr = false ∧ ∃ zid, w.zoneIDByName c.zoneName = some zid ∧
      ∃ l, w.dnsRecords s zid c.recordType c.recordName = some l := by
  simp only [main, hc] at hok
  split at hok
  · simp at hok
  · rename_i ha
    refine ⟨by simpa using ha, ?_⟩
    split at hok
    · simp at hok
    · rename_i zid hz
      refine ⟨zid, hz, ?_⟩
      split at hok
      · simp at hok
      · rename_i l hl
        exact ⟨l, hl⟩

/-- A successful address run either found the address in the slice and did
nothing, or ended with a create or an update of content `ip` that returned no
error. -/
theorem addressMode_ok {σ : Type} (c : Config) (ip : String) (exec : σ → Call → σ × Bool)
    (s : σ) (rs : List DNSRecord) (line : String) (h1 : 1 ≤ c.argN)
    (hok : (addressMode c ip exec s rs).exit = Exit.ok line) :
    ((∃ r ∈ rs, r.Content = ip) ∧ (addressMode c ip exec s rs).state = s ∧
      (addressMode c ip exec s rs).calls = []) ∨
    (∃ st call, (exec st call).2 = false ∧ (addressMode c ip exec s rs).state = (exec st call).1 ∧
      (call = Call.create c.zoneID
          { Typ := c.recordType, Name := c.recordName, Content := ip, Proxied := !c.noProxy } ∨
        ∃ rid, call = Call.update c.zoneID rid
          { Typ := c.recordType, Name := c.recordName, Content := ip, Proxied := !c.noProxy })) := by
  by_cases hany : rs.any (fun r => decide (r.Content = ip)) = true
  · left
    refine ⟨?_, by simp [addressMode, hany], by simp [addressMode, hany]⟩
    rw [List.any_eq_true] at hany
    obtain ⟨r, hr, hcont⟩ := hany
    exact ⟨r, hr, by simpa using hcont⟩
  · right
    have hne : ∀ r ∈ rs, r.Content ≠ ip := by
      intro r hr hcont
      apply hany
      rw [List.any_eq_true]
      exact ⟨r, hr, by simpa using hcont⟩
    by_cases hlt : (rs.length : Int) < c.argN
    · rw [addressMode_grow c ip exec s rs hlt hne] at hok ⊢
      simp only [Config.add] at hok ⊢
      refine ⟨s, _, ?_, rfl, Or.inl rfl⟩
      by_contra hcon
      simp [hcon] at hok
    · have hN : c.argN = ((c.argN.toNat : Nat) : Int) := by omega
      obtain ⟨r, _, _, hexit, hstate⟩ :=
        addressMode_trim c ip exec s rs c.argN.toNat hN (by omega) (by omega) hne
      refine ⟨_, _, ?_, hstate, Or.inr ⟨r.ID, rfl⟩⟩
      rw [hexit] at hok
      by_contra hcon
      rw [Bool.not_eq_false] at hcon
      rw [if_pos hcon] at hok
      cases hok

/-- After a create or an update that returned no error, the store holds a
record with the type, name and content sent. -/
theorem store_holds_sent (fresh : Nat → String) (outage : Nat → Bool) (st : Provider)
    (z : String) (rr : RecordData) (call : Call)
    (hcall : call = Call.create z rr ∨ ∃ rid, call = Call.update z rid rr)
    (herr : (Provider.exec fresh outage st call).2 = false) :
    ∃ r ∈ (Provider.exec fresh outage st call).1.records,
      r.Typ = rr.Typ ∧ r.Name = rr.Name ∧ r.Content = rr.Content := by
  rcases hcall with h | ⟨rid, h⟩
  · subst h
    rw [exec_create_ok fresh outage st z rr herr]
    exact ⟨{ ID := fresh st.clock, Typ := rr.Typ, Name := rr.Name, Content := rr.Content,
             Proxied := rr.Proxied, ModifiedOn := st.clock }, by simp, rfl, rfl, rfl⟩
  · subst h
    obtain ⟨⟨r0, hr0, hid⟩, hrec⟩ := exec_update_ok fresh outage st z rid rr herr
    rw [hrec]
    refine ⟨_, List.mem_map_of_mem _ hr0, ?_⟩
    simp [hid]

/-- Second run of the address case: after a successful first run on a slice
that rearranges the listing, the sorted listing of the new store holds the
resolved address, so the switch does nothing. -/
theorem address_second_run (c : Config) (ip : String)
    (sort : List DNSRecord → List DNSRecord) (hsort : SortsByModifiedOn sort)
    (fresh : Nat → String) (outage : Nat → Bool) (p : Provider) (line : String)
    (hA : c.recordType = "A")
    (hok : (dispatch c (some ip) (Provider.exec fresh outage) p
      (sort (p.matching c.recordType c.recordName))).exit = Exit.ok line) :
    dispatch c (some ip) (Provider.exec fresh outage)
        (dispatch c (some ip) (Provider.exec fresh outage) p
          (sort (p.matching c.recordType c.recordName))).state
        (sort ((dispatch c (some ip) (Provider.exec fresh outage) p
          (sort (p.matching c.recordType c.recordName))).state.matching
            c.recordType c.recordName)) =
      { state := (dispatch c (some ip) (Provider.exec fresh outage) p
          (sort (p.matching c.recordType c.recordName))).state
        calls := [], logs := [], exit := .ok "record already exists" } := by
  have h1 : 1 ≤ c.argN := by
    by_contra hcon
    have hlt : c.argN < 1 := by omega
    simp [dispatch, hA, hlt] at hok
  rw [dispatch_address c ip _ p _ hA h1] at hok ⊢
  rw [dispatch_address c ip _ _ _ hA h1]
  apply addressMode_found c ip
  rcases addressMode_ok c ip _ p _ line h1 hok with ⟨⟨r, hr, hcont⟩, hstate, _⟩ | ⟨st, call, herr, hstate, hcall⟩
  · rw [hstate]
    exact ⟨r, hr, hcont⟩
  · rw [hstate]
    obtain ⟨r, hr, hT, hNm, hCo⟩ := store_holds_sent fresh outage st c.zoneID
      { Typ := c.recordType, Name := c.recordName, Content := ip, Proxied := !c.noProxy } call
      hcall herr
    refine ⟨r, ?_, hCo⟩
    rw [(hsort _).1.mem_iff]
    simp only [Provider.matching, List.mem_filter]
    exact ⟨hr, by simp [hT, hNm]⟩

/-- Second run of the alias case: after a successful first run, if the record
set had at most one record or the first run issued no call, the first record
of the sorted listing of the new store has the target content, so the switch
does nothing. -/
theorem alias_second_run (c : Config) (sort : List DNSRecord → List DNSRecord)
    (hsort : SortsByModifiedOn sort) (fresh : Nat → String) (outage : Nat → Bool)
    (p : Provider) (line : String)
    (hok : (aliasMode c (Provider.exec fresh outage) p
      (sort (p.matching c.recordType c.recordName))).exit = Exit.ok line)
    (hone : (p.matching c.recordType c.recordName).length ≤ 1 ∨
      (aliasMode c (Provider.exec fresh outage) p
        (sort (p.matching c.recordType c.recordName))).calls = []) :
    aliasMode c (Provider.exec fresh outage)
        (aliasMode c (Provider.exec fresh outage) p
          (sort (p.matching c.recordType c.recordName))).state
        (sort ((aliasMode c (Provider.exec fresh outage) p
          (sort (p.matching c.recordType c.recordName))).state.matching
            c.recordType c.recordName)) =
      { state := (aliasMode c (Provider.exec fresh outage) p
          (sort (p.matching c.recordType c.recordName))).state
        calls := [], logs := [], exit := .ok "record already exists" } := by
  have hperm := (hsort (p.matching c.recordType c.recordName)).1
  -- the second run does nothing as soon as the new sorted listing starts with the target
  have key : ∀ (q : Provider),
      (∀ x ∈ q.matching c.recordType c.recordName, x.Content = c.arg) →
      q.matching c.recordType c.recordName ≠ [] →
      aliasMode c (Provider.exec fresh outage) q (sort (q.matching c.recordType c.recordName)) =
        { state := q, calls := [], logs := [], exit := .ok "record already exists" } := by
    intro q hall hnon
    have hq := (hsort (q.matching c.recordType c.recordName)).1
    cases hsq : sort (q.matching c.recordType c.recordName) with
    | nil =>
      rw [hsq] at hq
      exact absurd hq.nil_eq.symm hnon
    | cons x rest =>
      have hx : x.Content = c.arg := by
        apply hall
        rw [← hq.mem_iff, hsq]
        simp
      simp [aliasMode, hx]
  cases hs : sort (p.matching c.recordType c.recordName) with
  | nil =>
    rw [hs] at hok hperm
    have hl : p.matching c.recordType c.recordName = [] := hperm.nil_eq.symm
    simp only [aliasMode, Config.add] at hok ⊢
    have herr : (Provider.exec fresh outage p (Call.create c.zoneID
        { Typ := c.recordType, Name := c.recordName, Proxied := !c.noProxy
          Content := c.arg })).2 = false := by
      by_contra hcon
      rw [Bool.not_eq_false] at hcon
      rw [if_pos hcon] at hok
      cases hok
    have hrec := exec_create_ok fresh outage p _ _ herr
    have hm : (Provider.exec fresh outage p (Call.create c.zoneID
        { Typ := c.recordType, Name := c.recordName, Proxied := !c.noProxy
          Content := c.arg })).1.matching c.recordType c.recordName =
        [{ ID := fresh p.clock, Typ := c.recordType, Name := c.recordName, Content := c.arg
           Proxied := !c.noProxy, ModifiedOn := p.clock }] := by
      unfold Provider.matching at hl ⊢
      rw [hrec, List.filter_append, hl]
      simp
    apply key
    · intro x hx
      rw [hm] at hx
      simp only [List.mem_singleton] at hx
      rw [hx]
    · rw [hm]
      simp
  | cons r rest =>
    rw [hs] at hok hperm hone
    by_cases hr : r.Content = c.arg
    · have hst : (aliasMode c (Provider.exec fresh outage) p (r :: rest)).state = p := by
        simp [aliasMode, hr]
      rw [hst, hs]
      simp [aliasMode, hr]
    · have hcalls : (aliasMode c (Provider.exec fresh outage) p (r :: rest)).calls ≠ [] := by
        simp [aliasMode, hr]
      have hlen : (p.matching c.recordType c.recordName).length ≤ 1 := by
        rcases hone with h | h
        · exact h
        · exact absurd h hcalls
      have hrest : rest = [] := by
        have := hperm.length_eq
        simp only [List.length_cons] at this
        have h0 : rest.length = 0 := by omega
        exact List.length_eq_zero.mp h0
      subst hrest
      have hl : p.matching c.recordType c.recordName = [r] :=
        List.perm_singleton.mp hperm.symm
      simp only [aliasMode, hr, if_false, Config.update] at hok ⊢
      have herr : (Provider.exec fresh outage p (Call.update c.zoneID r.ID
          { Typ := c.recordType, Name := c.recordName, Content := c.arg
            Proxied := !c.noProxy })).2 = false := by
        by_contra hcon
        rw [Bool.not_eq_false] at hcon
        rw [if_pos hcon] at hok
        cases hok
      obtain ⟨_, hrec⟩ := exec_update_ok fresh outage p _ _ _ herr
      have hrmem : r ∈ p.records ∧ r.Typ = c.recordType ∧ r.Name = c.recordName := by
        have : r ∈ p.matching c.recordType c.recordName := by rw [hl]; simp
        simpa [Provider.matching, List.mem_filter] using this
      apply key
      · intro x hx
        simp only [Provider.matching, hrec, List.mem_filter, List.mem_map] at hx
        obtain ⟨⟨y, hy, hyx⟩, hq⟩ := hx
        by_cases hid : y.ID = r.ID
        · rw [if_pos hid] at hyx
          rw [← hyx]
        · rw [if_neg hid] at hyx
          subst hyx
          have hyin : y ∈ p.matching c.recordType c.recordName := by
            simp only [Provider.matching, List.mem_filter]
            exact ⟨hy, hq⟩
          rw [hl] at hyin
          simp only [List.mem_singleton] at hyin
          exact absurd (by rw [hyin]) hid
      · intro hnil
        have hin : DNSRecord.mk r.ID c.recordType c.recordName c.arg (!c.noProxy) p.clock ∈
            (Provider.exec fresh outage p (Call.update c.zoneID r.ID
              { Typ := c.recordType, Name := c.recordName, Content := c.arg
                Proxied := !c.noProxy })).1.matching c.recordType c.recordName := by
          simp only [Provider.matching, hrec, List.mem_filter, List.mem_map]
          exact ⟨⟨r, hrmem.1, by simp⟩, by simp⟩
        rw [hnil] at hin
        simp at hin

/-- The executable sort meets the contract of `sort.Sort` on `Records`. -/
theorem sortRecords_sorts : SortsByModifiedOn sortRecords := by
  intro l
  refine ⟨List.perm_insertionSort _ l, ?_⟩
  have hs : List.Sorted (fun a b : DNSRecord => a.ModifiedOn ≤ b.ModifiedOn)
      (List.insertionSort (fun a b : DNSRecord => a.ModifiedOn ≤ b.ModifiedOn) l) := by
    haveI : IsTotal DNSRecord (fun a b => a.ModifiedOn ≤ b.ModifiedOn) :=
      ⟨fun a b => Nat.le_total a.ModifiedOn b.ModifiedOn⟩
    haveI : IsTrans DNSRecord (fun a b => a.ModifiedOn ≤ b.ModifiedOn) :=
      ⟨fun _ _ _ hab hbc => Nat.le_trans hab hbc⟩
    exact List.sorted_insertionSort _ l
  exact List.Pairwise.imp (fun hab => Nat.not_lt.mpr hab) hs

/-- Claim C2 as the code has it. Idempotence against the record store: if a
first run ends in success (so its create or update returned no error, which
holds in particular when all its calls succeed), and, for type `"CNAME"`, the
record set of that name and type has at most one record or the first run
issued no call, then a second run from the resulting store, with the same
declaration and resolved address, issues no call, ends in success and leaves
the store as it is. For type `"A"` there is no condition on the record set.
The sort may be any that meets the contract of `sort.Sort`. -/
theorem second_run_issues_nothing (w : World Provider) (fresh : Nat → String)
    (outage : Nat → Bool) (p : Provider) (c : Config) (line : String)
    (hlist : w.dnsRecords = Provider.list) (hexec : w.exec = Provider.exec fresh outage)
    (hsort : SortsByModifiedOn w.sort)
    (hc : NewConfig w.record w.authEmail w.authKey = some c)
    (hok : (main w p).exit = Exit.ok line)
    (halias : c.recordType = "CNAME" →
      (p.matching c.recordType c.recordName).length ≤ 1 ∨ (main w p).calls = []) :
    (main w (main w p).state).calls = [] ∧
    (main w (main w p).state).exit = Exit.ok "record already exists" ∧
    (main w (main w p).state).state = (main w p).state := by
  obtain ⟨ha, zid, hz, _, _⟩ := main_ok_inv w p c line hc hok
  have hm : ∀ q : Provider, main w q =
      dispatch { c with zoneID := zid } w.getIP (Provider.exec fresh outage) q
        (w.sort (q.matching c.recordType c.recordName)) := by
    intro q
    rw [main_eq_dispatch w q c zid (q.matching c.recordType c.recordName) hc ha hz
      (by rw [hlist]; rfl), hexec]
  rw [hm p] at hok halias
  rw [hm (main w p).state, hm p]
  by_cases hA : c.recordType = "A"
  · cases hip : w.getIP with
    | none =>
      rw [hip] at hok
      simp only [dispatch] at hok
      split at hok
      · split at hok <;> simp at hok
      · rename_i hcon
        exact absurd hA hcon
    | some ip =>
      rw [hip] at hok
      have h2 := address_second_run { c with zoneID := zid } ip w.sort hsort fresh outage p line
        hA hok
      simp only [] at h2
      rw [h2]
      exact ⟨rfl, rfl, rfl⟩
  · by_cases hC : c.recordType = "CNAME"
    · have hd : ∀ (q : Provider) (rs : List DNSRecord),
          dispatch { c with zoneID := zid } w.getIP (Provider.exec fresh outage) q rs =
            aliasMode { c with zoneID := zid } (Provider.exec fresh outage) q rs :=
        fun q rs => dispatch_alias _ _ _ q rs hC
      rw [hd] at hok
      have hone := halias hC
      rw [hd] at hone
      have h2 := alias_second_run { c with zoneID := zid } w.sort hsort fresh outage p line
        hok hone
      simp only [] at h2
      rw [hd, hd, h2]
      exact ⟨rfl, rfl, rfl⟩
    · simp [dispatch, hA, hC] at hok

/-- Witness of C2 as amended: pool size 1 on the three-record store. -/
theorem second_run_issues_nothing_witness :
    (main (cloudflare "example.com:proxy:www:A:1" (some "9.9.9.9"))
      (main (cloudflare "example.com:proxy:www:A:1" (some "9.9.9.9")) threeAddresses).state).calls
      = [] :=
  (second_run_issues_nothing (cloudflare "example.com:proxy:www:A:1" (some "9.9.9.9"))
    (fun k => "new-" ++ toString k) (fun _ => false) threeAddresses
    { authEmail := "user@example.com", authKey := "key", zoneName := "example.com", zoneID := ""
      recordName := "www.example.com", recordType := "A", arg := "1", argN := 1
      noProxy := false }
    "A record updated" rfl rfl sortRecords_sorts (by decide) (by decide) (by decide)).1

/-- Claim C2 fails as stated, for type `"CNAME"` on a record set of two
records. With target `b.example.net` and records 1 (`a.example.net`, instant
10) and 2 (`c.example.net`, instant 20), the first run updates record 1, the
call succeeds and the run ends in success; the update moves record 1 to
instant 100, so the listing sorted by instant now starts with record 2, and
the second run issues an update of record 2. The instants are distinct, so
every sort that orders by instant gives this order. -/
theorem second_run_updates_other_alias :
    (main (cloudflare "example.com:proxy:www:CNAME:b.example.net" none) twoAliases).calls =
      [Call.update "zone-1" "1"
        { Typ := "CNAME", Name := "www.example.com", Content := "b.example.net"
          Proxied := true }] ∧
    (main (cloudflare "example.com:proxy:www:CNAME:b.example.net" none) twoAliases).exit =
      Exit.ok "CNAME record updated" ∧
    (main (cloudflare "example.com:proxy:www:CNAME:b.example.net" none) twoAliases).logs = [] ∧
    (main (cloudflare "example.com:proxy:www:CNAME:b.example.net" none)
      (main (cloudflare "example.com:proxy:www:CNAME:b.example.net" none)
        twoAliases).state).calls =
      [Call.update "zone-1" "2"
        { Typ := "CNAME", Name := "www.example.com", Content := "b.example.net"
          Proxied := true }] := by
  decide

end CfDnsUpdate
